import Mathlib

/-!
# sqsmover — a shallow embedding of `cmd/sqs/main.go`

The program moves the messages of a source SQS queue to a destination
queue.  We embed the two pure translators (`convertToEntries`,
`convertSuccessfulMessageToBatchRequestEntry`) and the transfer loop of
`moveMessages` as Lean functions.  The AWS service is modelled by an
oracle trace: each iteration of the loop consumes one `StepInput`
holding the responses the service would give to the receive,
send-message-batch and delete-message-batch calls of that iteration.
Fields of the AWS structures never read by the program are dropped.
-/

namespace SqsMover

/-- `*sqs.Message`: the fields the program reads. -/
structure Message where
  messageId : String
  body : String
  receiptHandle : String
deriving Repr, DecidableEq

/-- `*sqs.SendMessageBatchRequestEntry`: the fields set by `convertToEntries`. -/
structure SendMessageBatchRequestEntry where
  messageBody : String
  id : String
deriving Repr, DecidableEq

/-- `*sqs.DeleteMessageBatchRequestEntry`: the fields set by
`convertSuccessfulMessageToBatchRequestEntry`. -/
structure DeleteMessageBatchRequestEntry where
  receiptHandle : String
  id : String
deriving Repr, DecidableEq

/-- `convertToEntries` (main.go lines 108-118): `result[i]` takes its
`MessageBody` from `messages[i].Body` and its `Id` from
`messages[i].MessageId`. -/
def convertToEntries (messages : List Message) : List SendMessageBatchRequestEntry :=
  messages.map fun message => { messageBody := message.body, id := message.messageId }

/-- `convertSuccessfulMessageToBatchRequestEntry` (main.go lines 120-130):
`result[i]` takes its `ReceiptHandle` from `messages[i].ReceiptHandle` and
its `Id` from `messages[i].MessageId`. -/
def convertSuccessfulMessageToBatchRequestEntry (messages : List Message) :
    List DeleteMessageBatchRequestEntry :=
  messages.map fun message => { receiptHandle := message.receiptHandle, id := message.messageId }

/-- The pair returned by `svc.ReceiveMessage`: the Go SDK returns an output
struct together with an error value, and the loop reads `resp.Messages`
before it looks at `err`, so both components must be modelled. -/
structure ReceiveStep where
  messages : List Message
  err : Option String
deriving Repr, DecidableEq

/-- `*sqs.SendMessageBatchOutput`, reduced to the entry ids of its
`Successful` and `Failed` lists (the program reads only the lengths of
these lists; the ids let us relate the response to the request). -/
structure SendResp where
  successful : List String
  failed : List String
deriving Repr, DecidableEq

/-- `*sqs.DeleteMessageBatchOutput`, reduced to the entry ids of its
`Failed` list (the only field the program reads). -/
structure DeleteResp where
  failed : List String
deriving Repr, DecidableEq

/-- The service responses one loop iteration can observe.  `send` and
`delete` are modelled as `Except` because the program checks the error
before touching those outputs; entries of the trace that the iteration
does not reach are simply unused. -/
structure StepInput where
  receive : ReceiveStep
  send : Except String SendResp
  delete : Except String DeleteResp

/-- The loop's mutable state: `messagesProcessed` and the progress bar
total `b.Total` (a float64 in Go, but only ever assigned integer values:
`progress.NewInt(numberOfMessages)` and `float64(messagesProcessed)`). -/
structure LoopState where
  messagesProcessed : Nat
  total : Nat
deriving Repr, DecidableEq

/-- How a run of `moveMessages` ends.  `done` carries the count printed by
`"Done. Moved %s messages"` (main.go line 163). -/
inductive Outcome where
  | done (reported : Nat)
  | receiveError (e : String)
  | sendError (e : String)
  | sendFailedEntries (numFailed : Nat)
  | deleteError (e : String)
  | deleteFailedEntries
  | outOfTrace
deriving Repr, DecidableEq

/-- main.go lines 210-213: `if messagesProcessed > numberOfMessages
{ b.Total = float64(messagesProcessed) }`. -/
def updateTotal (numberOfMessages : Nat) (s : LoopState) : LoopState :=
  if numberOfMessages < s.messagesProcessed then { s with total := s.messagesProcessed } else s

/-- Result of one iteration of the `for` loop: either a `return`
(with the terminal outcome) or the state carried into the next iteration. -/
inductive IterResult where
  | halt (o : Outcome)
  | next (s : LoopState)
deriving Repr, DecidableEq

/-- One iteration of the `for` loop of `moveMessages` (main.go lines
158-217), in source order: the empty-batch check (line 161) precedes the
receive-error check (line 167).  The second component records the
delete-batch request at the point the code calls `svc.DeleteMessageBatch`
(line 195), `none` when that call is not made. -/
def iterate (numberOfMessages : Nat) (step : StepInput) (s : LoopState) :
    IterResult × Option (List DeleteMessageBatchRequestEntry) :=
  if step.receive.messages.length = 0 then
    (.halt (.done numberOfMessages), none)
  else
    match step.receive.err with
    | some e => (.halt (.receiveError e), none)
    | none =>
      match step.send with
      | .error e => (.halt (.sendError e), none)
      | .ok sendResp =>
        if 0 < sendResp.failed.length then
          (.halt (.sendFailedEntries sendResp.failed.length), none)
        else if sendResp.successful.length = step.receive.messages.length then
          let entries := convertSuccessfulMessageToBatchRequestEntry step.receive.messages
          match step.delete with
          | .error e => (.halt (.deleteError e), some entries)
          | .ok deleteResp =>
            if 0 < deleteResp.failed.length then
              (.halt .deleteFailedEntries, some entries)
            else
              (.next (updateTotal numberOfMessages
                { s with messagesProcessed :=
                    s.messagesProcessed + step.receive.messages.length }), some entries)
        else
          (.next (updateTotal numberOfMessages s), none)

/-- The `for` loop of `moveMessages`, run against an oracle trace; an
exhausted trace yields `outOfTrace` together with the state reached. -/
def moveLoop (numberOfMessages : Nat) :
    List StepInput → LoopState → Outcome × LoopState
  | [], s => (.outOfTrace, s)
  | step :: rest, s =>
    match iterate numberOfMessages step s with
    | (.halt o, _) => (o, s)
    | (.next s', _) => moveLoop numberOfMessages rest s'

/-- `moveMessages` (main.go lines 132-218): the progress bar starts at
`b := progress.NewInt(numberOfMessages)` and `messagesProcessed := 0`. -/
def moveMessages (numberOfMessages : Nat) (trace : List StepInput) : Outcome × LoopState :=
  moveLoop numberOfMessages trace { messagesProcessed := 0, total := numberOfMessages }

/-- The `sqs.ReceiveMessageInput` built once at main.go lines 133-138 and
used by every receive call of the loop. -/
structure ReceiveMessageInput where
  queueUrl : String
  visibilityTimeout : Int
  waitTimeSeconds : Int
  maxNumberOfMessages : Int
deriving Repr, DecidableEq

/-- The receive parameters of `moveMessages` (main.go lines 133-138). -/
def receiveParams (sourceQueueURL : String) : ReceiveMessageInput :=
  { queueUrl := sourceQueueURL, visibilityTimeout := 2, waitTimeSeconds := 0,
    maxNumberOfMessages := 10 }

/-- main.go lines 78-83: `main` returns without moving anything when the
approximate message count is 0, and otherwise calls `moveMessages`. -/
def mainTransfer (numberOfMessages : Nat) (trace : List StepInput) :
    Option (Outcome × LoopState) :=
  if numberOfMessages = 0 then none else some (moveMessages numberOfMessages trace)

/-- The termination kind of an outcome, with payloads stripped. -/
def outcomeKind : Outcome → Nat
  | .done _ => 0
  | .receiveError _ => 1
  | .sendError _ => 2
  | .sendFailedEntries _ => 3
  | .deleteError _ => 4
  | .deleteFailedEntries => 5
  | .outOfTrace => 6

/-- The SQS batch contract: the service reports each request entry exactly
once, either under `Successful` or under `Failed`. -/
def SendResp.wellFormedFor (r : SendResp) (entries : List SendMessageBatchRequestEntry) : Prop :=
  (r.successful ++ r.failed).Perm (entries.map SendMessageBatchRequestEntry.id)

/-- The ids of the forward entries are the message ids, in order. -/
theorem convertToEntries_ids (messages : List Message) :
    (convertToEntries messages).map SendMessageBatchRequestEntry.id
      = messages.map Message.messageId := by
  simp [convertToEntries, List.map_map]

/-- The ids of the delete entries are the message ids, in order. -/
theorem convertDelete_ids (messages : List Message) :
    (convertSuccessfulMessageToBatchRequestEntry messages).map
        DeleteMessageBatchRequestEntry.id
      = messages.map Message.messageId := by
  simp [convertSuccessfulMessageToBatchRequestEntry, List.map_map]

/-- Claim C6: both translators are total Lean functions, preserve the
input's length and index-wise order, set each output entry's id to the
source message's `MessageId`, and carry the body (forward entries) resp.
the receipt handle (delete entries) over unchanged. -/
theorem translators_preserve_order_ids_and_payloads (messages : List Message) :
    (convertToEntries messages).length = messages.length ∧
    (convertSuccessfulMessageToBatchRequestEntry messages).length = messages.length ∧
    (∀ i : Nat, ((convertToEntries messages)[i]?).map SendMessageBatchRequestEntry.id
        = (messages[i]?).map Message.messageId) ∧
    (∀ i : Nat, ((convertToEntries messages)[i]?).map
          SendMessageBatchRequestEntry.messageBody
        = (messages[i]?).map Message.body) ∧
    (∀ i : Nat, ((convertSuccessfulMessageToBatchRequestEntry messages)[i]?).map
          DeleteMessageBatchRequestEntry.id
        = (messages[i]?).map Message.messageId) ∧
    (∀ i : Nat, ((convertSuccessfulMessageToBatchRequestEntry messages)[i]?).map
          DeleteMessageBatchRequestEntry.receiptHandle
        = (messages[i]?).map Message.receiptHandle) := by
  refine ⟨by simp [convertToEntries], by simp [convertSuccessfulMessageToBatchRequestEntry],
    ?_, ?_, ?_, ?_⟩ <;>
      intro i <;>
        simp only [convertToEntries, convertSuccessfulMessageToBatchRequestEntry,
          List.getElem?_map, Option.map_map] <;>
          rfl

/-- Whenever the loop body issues a delete-batch request, the request is
the translation of the full received batch and the guards of main.go
lines 184 and 189 have passed: the forward response reported no failed
entry and as many successful entries as the batch has messages. -/
theorem iterate_delete_request (n : Nat) (step : StepInput) (s : LoopState)
    (entries : List DeleteMessageBatchRequestEntry)
    (h : (iterate n step s).2 = some entries) :
    entries = convertSuccessfulMessageToBatchRequestEntry step.receive.messages ∧
    ∃ r, step.send = .ok r ∧ r.failed = [] ∧
      r.successful.length = step.receive.messages.length := by
  by_cases h0 : step.receive.messages.length = 0
  · simp [iterate, h0] at h
  · cases herr : step.receive.err with
    | some e => simp [iterate, h0, herr] at h
    | none =>
      cases hsend : step.send with
      | error e => simp [iterate, h0, herr, hsend] at h
      | ok r =>
        by_cases hf : 0 < r.failed.length
        · simp [iterate, h0, herr, hsend, hf] at h
        · have hfe : r.failed = [] := by
            rcases hr : r.failed with _ | ⟨a, l⟩
            · rfl
            · exact absurd (by simp [hr]) hf
          by_cases hsl : r.successful.length = step.receive.messages.length
          · cases hdel : step.delete with
            | error e =>
              simp [iterate, h0, herr, hsend, hf, hsl, hdel] at h
              exact ⟨h.symm, r, rfl, hfe, hsl⟩
            | ok d =>
              by_cases hdf : 0 < d.failed.length
              · simp [iterate, h0, herr, hsend, hf, hsl, hdel, hdf] at h
                exact ⟨h.symm, r, rfl, hfe, hsl⟩
              · simp [iterate, h0, herr, hsend, hf, hsl, hdel, hdf] at h
                exact ⟨h.symm, r, rfl, hfe, hsl⟩
          · simp [iterate, h0, herr, hsend, hf, hsl] at h

/-- Claim C1: a delete-batch request is issued by an iteration only when
every message of the received batch was confirmed forwarded.  If the
forward response reports any failed entry, no delete request is issued;
and, assuming the SQS batch contract on the forward response, every
issued delete entry carries the id of a successfully forwarded message. -/
theorem delete_only_for_fully_forwarded_batch
    (numberOfMessages : Nat) (step : StepInput) (s : LoopState) (sendResp : SendResp)
    (hsend : step.send = .ok sendResp)
    (hwf : sendResp.wellFormedFor (convertToEntries step.receive.messages)) :
    (0 < sendResp.failed.length → (iterate numberOfMessages step s).2 = none) ∧
    (∀ entries, (iterate numberOfMessages step s).2 = some entries →
      ∀ e ∈ entries, e.id ∈ sendResp.successful) := by
  constructor
  · intro hf
    cases hsnd : (iterate numberOfMessages step s).2 with
    | none => rfl
    | some entries =>
      obtain ⟨-, r, hsend2, hfe, -⟩ := iterate_delete_request _ _ _ _ hsnd
      rw [hsend] at hsend2
      injection hsend2 with hr
      rw [hr, hfe] at hf
      exact absurd hf (by simp)
  · intro entries hsnd e he
    obtain ⟨hent, r, hsend2, hfe, -⟩ := iterate_delete_request _ _ _ _ hsnd
    rw [hsend] at hsend2
    injection hsend2 with hr
    subst hr
    rw [SendResp.wellFormedFor, hfe, List.append_nil, convertToEntries_ids] at hwf
    refine hwf.mem_iff.mpr ?_
    rw [← convertDelete_ids, ← hent]
    exact List.mem_map_of_mem DeleteMessageBatchRequestEntry.id he

/-- A one-message batch whose forward succeeds in full and whose delete
succeeds: used to instantiate the C1 theorem. -/
def c1step : StepInput :=
  { receive := { messages := [⟨"i1", "b1", "r1"⟩], err := none },
    send := .ok { successful := ["i1"], failed := [] },
    delete := .ok { failed := [] } }

/-- Claim C1, witnessed at a concrete one-message batch. -/
theorem delete_only_for_fully_forwarded_batch_witness :
    (0 < ([] : List String).length →
      (iterate 5 c1step { messagesProcessed := 0, total := 5 }).2 = none) ∧
    (∀ entries,
      (iterate 5 c1step { messagesProcessed := 0, total := 5 }).2 = some entries →
      ∀ e ∈ entries, e.id ∈ ["i1"]) :=
  delete_only_for_fully_forwarded_batch 5 c1step { messagesProcessed := 0, total := 5 }
    { successful := ["i1"], failed := [] } rfl (List.Perm.refl _)

/-- Claim C2 (code bug): when the receive call fails, the AWS SDK hands
back the error together with an output whose `Messages` list is empty,
and the loop tests `len(resp.Messages) == 0` (main.go line 161) before it
tests `err != nil` (line 167): the run therefore ends in the success
outcome `done` — printing "Done. Moved 5 messages" — instead of aborting
with `receiveError`. -/
theorem receive_error_reported_as_success :
    moveMessages 5
      [{ receive := { messages := [], err := some "ServiceError" },
         send := .ok { successful := [], failed := [] },
         delete := .ok { failed := [] } }]
      = (.done 5, { messagesProcessed := 0, total := 5 }) := rfl

/-- A two-message batch whose forward and delete both fully succeed. -/
def c3goodStep : StepInput :=
  { receive := { messages := [⟨"i1", "b1", "r1"⟩, ⟨"i2", "b2", "r2"⟩], err := none },
    send := .ok { successful := ["i1", "i2"], failed := [] },
    delete := .ok { failed := [] } }

/-- An empty receive: the source is observed drained. -/
def c3emptyStep : StepInput :=
  { receive := { messages := [], err := none },
    send := .ok { successful := [], failed := [] },
    delete := .ok { failed := [] } }

/-- Claim C3 (code bug): on the empty-batch exit, main.go line 163 prints
`numberOfMessages` — the approximate total — and not `messagesProcessed`.
With approximate total 5 and a source holding two messages that are moved
in one fully successful batch, the run reports "Moved 5 messages" while
the accumulated moved count is 2. -/
theorem done_reports_approximate_total_not_moved_count :
    (moveMessages 5 [c3goodStep, c3emptyStep]).1 = .done 5 ∧
    (moveMessages 5 [c3goodStep, c3emptyStep]).2.messagesProcessed = 2 ∧
    (5 : Nat) ≠ 2 := by
  refine ⟨rfl, rfl, by decide⟩

/-- The revision step of main.go lines 210-213 never touches the moved
count. -/
theorem updateTotal_messagesProcessed (n : Nat) (s : LoopState) :
    (updateTotal n s).messagesProcessed = s.messagesProcessed := by
  unfold updateTotal
  split <;> rfl

/-- Claim C5: if the forward response reports no failed entry but strictly
fewer successful entries than the batch has messages, the iteration issues
no delete request, does not abort, leaves the moved count unchanged and
the loop continues with the next receive. -/
theorem forward_undercount_skips_batch_and_continues
    (n : Nat) (step : StepInput) (rest : List StepInput) (s : LoopState) (r : SendResp)
    (hne : step.receive.messages ≠ [])
    (herr : step.receive.err = none)
    (hsend : step.send = .ok r)
    (hf : r.failed = [])
    (hlt : r.successful.length < step.receive.messages.length) :
    (iterate n step s).2 = none ∧
    ∃ s', (iterate n step s).1 = .next s' ∧
      s'.messagesProcessed = s.messagesProcessed ∧
      moveLoop n (step :: rest) s = moveLoop n rest s' := by
  have h0 : ¬ step.receive.messages.length = 0 := by
    simpa [List.length_eq_zero] using hne
  have hf0 : ¬ 0 < r.failed.length := by simp [hf]
  have hsl : ¬ r.successful.length = step.receive.messages.length := Nat.ne_of_lt hlt
  refine ⟨?_, updateTotal n s, ?_, updateTotal_messagesProcessed n s, ?_⟩
  · simp [iterate, h0, herr, hsend, hf0, hsl]
  · simp [iterate, h0, herr, hsend, hf0, hsl]
  · simp [moveLoop, iterate, h0, herr, hsend, hf0, hsl]

/-- A one-message batch whose forward response reports zero failures and
zero successes. -/
def c5step : StepInput :=
  { receive := { messages := [⟨"i1", "b1", "r1"⟩], err := none },
    send := .ok { successful := [], failed := [] },
    delete := .ok { failed := [] } }

/-- Claim C5, witnessed at a concrete one-message batch. -/
theorem forward_undercount_skips_batch_and_continues_witness :
    (iterate 5 c5step { messagesProcessed := 0, total := 5 }).2 = none ∧
    ∃ s', (iterate 5 c5step { messagesProcessed := 0, total := 5 }).1 = .next s' ∧
      s'.messagesProcessed = 0 ∧
      moveLoop 5 [c5step] { messagesProcessed := 0, total := 5 } = moveLoop 5 [] s' :=
  forward_undercount_skips_batch_and_continues 5 c5step []
    { messagesProcessed := 0, total := 5 } { successful := [], failed := [] }
    (by simp [c5step]) rfl rfl rfl (by decide)

/-- Claim C8: a transport or service error on the forward call aborts the
iteration as fatal before any delete request is issued: the loop returns
with `sendError` and the state is unchanged, so the source is untouched
for that batch. -/
theorem forward_error_aborts_before_delete
    (n : Nat) (step : StepInput) (rest : List StepInput) (s : LoopState) (e : String)
    (hne : step.receive.messages ≠ [])
    (herr : step.receive.err = none)
    (hsend : step.send = .error e) :
    (iterate n step s).2 = none ∧
    moveLoop n (step :: rest) s = (.sendError e, s) := by
  have h0 : ¬ step.receive.messages.length = 0 := by
    simpa [List.length_eq_zero] using hne
  constructor
  · simp [iterate, h0, herr, hsend]
  · simp [moveLoop, iterate, h0, herr, hsend]

/-- A one-message batch whose forward call fails with a service error. -/
def c8step : StepInput :=
  { receive := { messages := [⟨"i1", "b1", "r1"⟩], err := none },
    send := .error "ServiceError",
    delete := .ok { failed := [] } }

/-- Claim C8, witnessed at a concrete one-message batch. -/
theorem forward_error_aborts_before_delete_witness :
    (iterate 5 c8step { messagesProcessed := 0, total := 5 }).2 = none ∧
    moveLoop 5 [c8step] { messagesProcessed := 0, total := 5 }
      = (.sendError "ServiceError", { messagesProcessed := 0, total := 5 }) :=
  forward_error_aborts_before_delete 5 c8step [] { messagesProcessed := 0, total := 5 }
    "ServiceError" (by simp [c8step]) rfl rfl

/-- Claim C9: if the iteration reaches the delete step and the delete call
fails outright, or its response reports any failed entry, the loop returns
at once with the corresponding fatal outcome; the state — in particular
the moved count — is unchanged and no further iteration is started. -/
theorem delete_failure_aborts_without_counting
    (n : Nat) (step : StepInput) (rest : List StepInput) (s : LoopState) (r : SendResp)
    (hne : step.receive.messages ≠ [])
    (herr : step.receive.err = none)
    (hsend : step.send = .ok r)
    (hf : r.failed = [])
    (hall : r.successful.length = step.receive.messages.length) :
    (∀ e, step.delete = .error e → moveLoop n (step :: rest) s = (.deleteError e, s)) ∧
    (∀ d, step.delete = .ok d → d.failed ≠ [] →
      moveLoop n (step :: rest) s = (.deleteFailedEntries, s)) := by
  have h0 : ¬ step.receive.messages.length = 0 := by
    simpa [List.length_eq_zero] using hne
  have hf0 : ¬ 0 < r.failed.length := by simp [hf]
  constructor
  · intro e hdel
    simp [moveLoop, iterate, h0, herr, hsend, hf0, hall, hdel]
  · intro d hdel hdf
    have hdf0 : 0 < d.failed.length := by
      cases hd : d.failed with
      | nil => exact absurd hd hdf
      | cons a l => simp [hd]
    simp [moveLoop, iterate, h0, herr, hsend, hf0, hall, hdel, hdf0]

/-- A one-message batch that forwards in full but whose delete call fails
with a service error. -/
def c9step : StepInput :=
  { receive := { messages := [⟨"i1", "b1", "r1"⟩], err := none },
    send := .ok { successful := ["i1"], failed := [] },
    delete := .error "ServiceError" }

/-- Claim C9, witnessed at a concrete one-message batch. -/
theorem delete_failure_aborts_without_counting_witness :
    (∀ e, c9step.delete = .error e →
      moveLoop 5 [c9step] { messagesProcessed := 0, total := 5 }
        = (.deleteError e, { messagesProcessed := 0, total := 5 })) ∧
    (∀ d, c9step.delete = .ok d → d.failed ≠ [] →
      moveLoop 5 [c9step] { messagesProcessed := 0, total := 5 }
        = (.deleteFailedEntries, { messagesProcessed := 0, total := 5 })) :=
  delete_failure_aborts_without_counting 5 c9step [] { messagesProcessed := 0, total := 5 }
    { successful := ["i1"], failed := [] } (by simp [c9step]) rfl rfl rfl rfl

/-- The progress invariant: before the first upward revision the bar
total is the initial approximate count; after a revision it is an earlier
value of the moved count, hence at most the current one. -/
def TotalInv (n : Nat) (s : LoopState) : Prop :=
  s.total = n ∨ s.total ≤ s.messagesProcessed

/-- The revision step preserves the progress invariant and never lowers
the bar total. -/
theorem updateTotal_inv_and_mono (n : Nat) (s : LoopState) (h : TotalInv n s) :
    s.total ≤ (updateTotal n s).total ∧ TotalInv n (updateTotal n s) := by
  unfold TotalInv at h ⊢
  unfold updateTotal
  split
  · rename_i hlt
    constructor
    · rcases h with h | h
      · show s.total ≤ s.messagesProcessed
        omega
      · exact h
    · exact Or.inr (Nat.le_refl _)
  · exact ⟨Nat.le_refl _, h⟩

/-- A continuing iteration carries the state monotonically: the moved
count and the bar total never decrease, and the progress invariant is
preserved. -/
theorem iterate_next_state_mono (n : Nat) (step : StepInput) (s s' : LoopState)
    (h : (iterate n step s).1 = .next s') (hinv : TotalInv n s) :
    s.messagesProcessed ≤ s'.messagesProcessed ∧ s.total ≤ s'.total ∧ TotalInv n s' := by
  by_cases h0 : step.receive.messages.length = 0
  · simp [iterate, h0] at h
  · cases herr : step.receive.err with
    | some e => simp [iterate, h0, herr] at h
    | none =>
      cases hsend : step.send with
      | error e => simp [iterate, h0, herr, hsend] at h
      | ok r =>
        by_cases hf : 0 < r.failed.length
        · simp [iterate, h0, herr, hsend, hf] at h
        · by_cases hsl : r.successful.length = step.receive.messages.length
          · cases hdel : step.delete with
            | error e => simp [iterate, h0, herr, hsend, hf, hsl, hdel] at h
            | ok d =>
              by_cases hdf : 0 < d.failed.length
              · simp [iterate, h0, herr, hsend, hf, hsl, hdel, hdf] at h
              · simp [iterate, h0, herr, hsend, hf, hsl, hdel, hdf] at h
                have hinv1 : TotalInv n
                    { s with messagesProcessed :=
                        s.messagesProcessed + step.receive.messages.length } := by
                  unfold TotalInv at hinv ⊢
                  rcases hinv with hh | hh
                  · exact Or.inl hh
                  · exact Or.inr (le_trans hh (Nat.le_add_right _ _))
                obtain ⟨g1, g2⟩ := updateTotal_inv_and_mono n _ hinv1
                rw [← h]
                refine ⟨?_, g1, g2⟩
                rw [updateTotal_messagesProcessed]
                exact Nat.le_add_right _ _
          · simp [iterate, h0, herr, hsend, hf, hsl] at h
            obtain ⟨g1, g2⟩ := updateTotal_inv_and_mono n s hinv
            rw [← h]
            refine ⟨?_, g1, g2⟩
            rw [updateTotal_messagesProcessed]

/-- Along any run of the loop from a state satisfying the progress
invariant, the moved count and the bar total are non-decreasing and the
invariant still holds at the final state. -/
theorem moveLoop_monotone (n : Nat) (trace : List StepInput) :
    ∀ s : LoopState, TotalInv n s →
      s.messagesProcessed ≤ (moveLoop n trace s).2.messagesProcessed ∧
      s.total ≤ (moveLoop n trace s).2.total ∧
      TotalInv n (moveLoop n trace s).2 := by
  induction trace with
  | nil => exact fun s h => ⟨Nat.le_refl _, Nat.le_refl _, h⟩
  | cons step rest ih =>
    intro s h
    rcases hit : iterate n step s with ⟨ir, d⟩
    cases ir with
    | halt o =>
      have heq : moveLoop n (step :: rest) s = (o, s) := by
        simp [moveLoop, hit]
      rw [heq]
      exact ⟨Nat.le_refl _, Nat.le_refl _, h⟩
    | next s' =>
      have heq : moveLoop n (step :: rest) s = moveLoop n rest s' := by
        simp [moveLoop, hit]
      have hfst : (iterate n step s).1 = .next s' := by rw [hit]
      obtain ⟨h1, h2, h3⟩ := iterate_next_state_mono n step s s' hfst h
      obtain ⟨g1, g2, g3⟩ := ih s' h3
      rw [heq]
      exact ⟨le_trans h1 g1, le_trans h2 g2, g3⟩

/-- Claim C7: from any state satisfying the progress invariant — the
initial state of `moveMessages` does — the moved count and the display
total are non-decreasing over the remainder of the run; and the revision
step changes the bar total only when the moved count strictly exceeds the
current total, in which case it sets it to exactly the moved count (an
upward revision). -/
theorem progress_monotone_and_total_revised_upward
    (n : Nat) (trace : List StepInput) (s : LoopState) (hinv : TotalInv n s) :
    (s.messagesProcessed ≤ (moveLoop n trace s).2.messagesProcessed ∧
     s.total ≤ (moveLoop n trace s).2.total) ∧
    ((updateTotal n s).total ≠ s.total →
      s.total < s.messagesProcessed ∧ (updateTotal n s).total = s.messagesProcessed) := by
  obtain ⟨h1, h2, -⟩ := moveLoop_monotone n trace s hinv
  refine ⟨⟨h1, h2⟩, ?_⟩
  intro hch
  unfold updateTotal at hch ⊢
  by_cases hlt : n < s.messagesProcessed
  · rw [if_pos hlt] at hch ⊢
    refine ⟨?_, rfl⟩
    have hne : s.messagesProcessed ≠ s.total := hch
    unfold TotalInv at hinv
    rcases hinv with hh | hh
    · omega
    · omega
  · rw [if_neg hlt] at hch
    exact absurd rfl hch

/-- Claim C7, witnessed at the initial state for approximate total 3. -/
theorem progress_monotone_and_total_revised_upward_witness :
    ((0 : Nat) ≤ (moveLoop 3 [] { messagesProcessed := 0, total := 3 }).2.messagesProcessed ∧
     (3 : Nat) ≤ (moveLoop 3 [] { messagesProcessed := 0, total := 3 }).2.total) ∧
    ((updateTotal 3 { messagesProcessed := 0, total := 3 }).total ≠ 3 →
      (3 : Nat) < 0 ∧ (updateTotal 3 { messagesProcessed := 0, total := 3 }).total = 0) :=
  progress_monotone_and_total_revised_upward 3 [] { messagesProcessed := 0, total := 3 }
    (Or.inl rfl)

/-- The control flow of the loop never inspects the approximate total or
the loop state: which branch an iteration takes — and hence the kind of
the terminal outcome and the number of iterations consumed — depends only
on the trace of service responses. -/
theorem moveLoop_kind_trace_only (trace : List StepInput) :
    ∀ (n m : Nat) (s t : LoopState),
      outcomeKind (moveLoop n trace s).1 = outcomeKind (moveLoop m trace t).1 := by
  induction trace with
  | nil => intro n m s t; rfl
  | cons step rest ih =>
    intro n m s t
    by_cases h0 : step.receive.messages.length = 0
    · simp [moveLoop, iterate, h0, outcomeKind]
    · cases herr : step.receive.err with
      | some e => simp [moveLoop, iterate, h0, herr, outcomeKind]
      | none =>
        cases hsend : step.send with
        | error e => simp [moveLoop, iterate, h0, herr, hsend, outcomeKind]
        | ok r =>
          by_cases hf : 0 < r.failed.length
          · simp [moveLoop, iterate, h0, herr, hsend, hf, outcomeKind]
          · by_cases hsl : r.successful.length = step.receive.messages.length
            · cases hdel : step.delete with
              | error e =>
                simp [moveLoop, iterate, h0, herr, hsend, hf, hsl, hdel, outcomeKind]
              | ok d =>
                by_cases hdf : 0 < d.failed.length
                · simp [moveLoop, iterate, h0, herr, hsend, hf, hsl, hdel, hdf, outcomeKind]
                · simp only [moveLoop, iterate, h0, herr, hsend, hf, hsl, hdel, hdf,
                    if_false, if_neg, ite_false]
                  simp [h0, hf, hdf, hsl]
                  exact ih n m _ _
            · simp only [moveLoop, iterate, h0, herr, hsend, hf, hsl]
              simp [h0, hf, hsl]
              exact ih n m _ _

/-- A step whose receive yields one message that forwards and deletes
successfully. -/
def c4step : StepInput :=
  { receive := { messages := [⟨"i1", "b1", "r1"⟩], err := none },
    send := .ok { successful := ["i1"], failed := [] },
    delete := .ok { failed := [] } }

/-- Claim C4 counterexample: with approximate total 0, `main` returns
without invoking the transfer (main.go lines 78-81) although the source
still holds a message, while with total 1 the same trace is processed:
the approximate total decides whether the transfer runs at all. -/
theorem approximate_total_zero_skips_transfer :
    mainTransfer 0 [c4step] = none ∧ mainTransfer 1 [c4step] ≠ none := by
  refine ⟨rfl, ?_⟩
  simp [mainTransfer]

/-- Claim C4, amended: for every positive approximate total the transfer
runs, and the total influences neither whether nor when the loop
terminates: under any two positive totals the loop consumes the same
trace and finishes with the same outcome kind. -/
theorem termination_independent_of_positive_total
    (n m : Nat) (hn : n ≠ 0) (hm : m ≠ 0) (trace : List StepInput) :
    ∃ p q, mainTransfer n trace = some p ∧ mainTransfer m trace = some q ∧
      outcomeKind p.1 = outcomeKind q.1 := by
  refine ⟨moveMessages n trace, moveMessages m trace, ?_, ?_, ?_⟩
  · simp [mainTransfer, hn]
  · simp [mainTransfer, hm]
  · exact moveLoop_kind_trace_only trace n m _ _

/-- Claim C4 (amended), witnessed at totals 1 and 7 on a one-step trace. -/
theorem termination_independent_of_positive_total_witness :
    ∃ p q, mainTransfer 1 [c4step] = some p ∧ mainTransfer 7 [c4step] = some q ∧
      outcomeKind p.1 = outcomeKind q.1 :=
  termination_independent_of_positive_total 1 7 (by decide) (by decide) [c4step]

/-- Claim C10: every receive request of the loop carries the single
parameter record built at main.go lines 133-138 — at most 10 messages per
batch and a zero long-poll wait — so a service honoring the requested
maximum never returns a batch of more than 10 messages. -/
theorem receive_request_bounded
    (url : String) (batch : List Message)
    (honored : (batch.length : Int) ≤ (receiveParams url).maxNumberOfMessages) :
    (receiveParams url).maxNumberOfMessages = 10 ∧
    (receiveParams url).waitTimeSeconds = 0 ∧
    batch.length ≤ 10 := by
  refine ⟨rfl, rfl, ?_⟩
  have h10 : (batch.length : Int) ≤ 10 := honored
  exact_mod_cast h10

/-- Claim C10, witnessed at a concrete queue URL and the empty batch. -/
theorem receive_request_bounded_witness :
    (receiveParams "queue").maxNumberOfMessages = 10 ∧
    (receiveParams "queue").waitTimeSeconds = 0 ∧
    ([] : List Message).length ≤ 10 :=
  receive_request_bounded "queue" [] (by decide)

end SqsMover
